import Mathlib

/-!
Verification development for the `three-pointcloud-viewer` repository.

The development shallowly embeds the LAS binary decoder and the distance
based LOD resampler of `src/components/PointCloudViewer.js`,
`src/components/FileUpload.js` and `src/components/LODPointCloudViewer.js`.

Conventions of the embedding:
* a binary file buffer is a `List ℕ` of byte values (a real `DataView`
  byte is in `[0, 256)`; theorems that need this fact take it as an
  explicit hypothesis);
* `DataView.getUintN` / `getInt32` reads are `Option`-valued: `none`
  models the JavaScript `RangeError` that a read past the end of the
  buffer raises;
* the IEEE-754 double fields of the header (scale, offset, bounds) are
  stored as their raw 64-bit little-endian bit patterns and interpreted
  into exact rationals by `interpF64` (finite values only); real-number
  arithmetic of the source is modelled exactly over `ℚ`;
* JavaScript numbers used as camera distances are modelled by `JSNum`,
  which keeps the IEEE comparison behaviour of `NaN` and the infinities.
-/

set_option maxRecDepth 100000

namespace ThreeViewer

/-- Byte of a buffer at an index, `0` past the end (used only where an
in-bounds fact is already known, mirroring a successful `DataView` read). -/
def getv (buf : List ℕ) (i : ℕ) : ℕ := buf.getD i 0

/-- Little-endian value of `n` bytes starting at `off`. -/
def leVal (buf : List ℕ) : ℕ → ℕ → ℕ
  | _, 0 => 0
  | off, k + 1 => getv buf off + 256 * leVal buf (off + 1) k

/-- Bounds-checked little-endian read of `n` bytes at `off`;
`none` models the `RangeError` of an out-of-range `DataView` read. -/
def readLE (buf : List ℕ) (off n : ℕ) : Option ℕ :=
  if off + n ≤ buf.length then some (leVal buf off n) else none

/-- `DataView.getUint8`. -/
def readU8 (buf : List ℕ) (off : ℕ) : Option ℕ := readLE buf off 1

/-- `DataView.getUint16(off, true)`. -/
def readU16 (buf : List ℕ) (off : ℕ) : Option ℕ := readLE buf off 2

/-- `DataView.getUint32(off, true)`. -/
def readU32 (buf : List ℕ) (off : ℕ) : Option ℕ := readLE buf off 4

/-- The raw bit pattern read by `DataView.getFloat64(off, true)`. -/
def readU64 (buf : List ℕ) (off : ℕ) : Option ℕ := readLE buf off 8

/-- `DataView.getInt32(off, true)`: two's-complement interpretation. -/
def readI32 (buf : List ℕ) (off : ℕ) : Option ℤ :=
  (readU32 buf off).map fun v =>
    if v < 2147483648 then (v : ℤ) else (v : ℤ) - 4294967296

/-- Exact rational value of an IEEE-754 binary64 bit pattern;
`none` for `NaN` and the infinities (exponent field all ones). -/
def interpF64 (bits : ℕ) : Option ℚ :=
  let sign : ℕ := bits / 2 ^ 63 % 2
  let expo : ℕ := bits / 2 ^ 52 % 2 ^ 11
  let frac : ℕ := bits % 2 ^ 52
  if expo = 2047 then none
  else
    let mag : ℚ :=
      if expo = 0 then (frac : ℚ) * (2 : ℚ) ^ (-1074 : ℤ)
      else ((2 ^ 52 + frac : ℕ) : ℚ) * (2 : ℚ) ^ ((expo : ℤ) - 1075)
    some (if sign = 1 then -mag else mag)

/-- A JavaScript number as used for camera distances and the LOD
thresholds: `NaN`, the two infinities, or a finite value (exact `ℚ`). -/
inductive JSNum where
  | nan : JSNum
  | posInf : JSNum
  | negInf : JSNum
  | fin (q : ℚ) : JSNum
deriving DecidableEq

/-- The JavaScript `<=` on numbers: any comparison with `NaN` is false;
`-Infinity` is below and `Infinity` above every non-`NaN` value. -/
def jle : JSNum → JSNum → Bool
  | .nan, _ => false
  | _, .nan => false
  | .negInf, _ => true
  | _, .posInf => true
  | .posInf, _ => false
  | .fin _, .negInf => false
  | .fin a, .fin b => decide (a ≤ b)

/-- One entry of the `lodLevels` ladder of the two viewer components. -/
structure LodTier where
  maxDistance : JSNum
  pointLimit : ℕ
  step : ℕ
deriving DecidableEq

/-- The `lodLevels` ladder of `PointCloudViewer.js` (lines 537-544). -/
def lodLevelsPCV : List LodTier :=
  [⟨.fin 50, 2000000, 1⟩, ⟨.fin 100, 1000000, 2⟩, ⟨.fin 200, 500000, 4⟩,
   ⟨.fin 500, 250000, 8⟩, ⟨.fin 1000, 100000, 16⟩, ⟨.posInf, 50000, 32⟩]

/-- The `lodLevels` ladder of `LODPointCloudViewer.js` (lines 63-70). -/
def lodLevelsLODViewer : List LodTier :=
  [⟨.fin 50, 1000000, 1⟩, ⟨.fin 100, 500000, 2⟩, ⟨.fin 200, 250000, 4⟩,
   ⟨.fin 500, 100000, 8⟩, ⟨.fin 1000, 50000, 16⟩, ⟨.posInf, 25000, 32⟩]

/-- The search loop of `getLodLevelForDistance`: first index (counting
from `i`) whose tier satisfies `distance <= maxDistance`, else the
fallback value. -/
def lodLevelSearch (d : JSNum) (fallback : ℕ) : List LodTier → ℕ → ℕ
  | [], _ => fallback
  | t :: rest, i => if jle d t.maxDistance then i else lodLevelSearch d fallback rest (i + 1)

/-- `getLodLevelForDistance` (PointCloudViewer.js lines 574-581 and
LODPointCloudViewer.js lines 96-103): linear scan of the ladder,
falling back to the last index when no comparison holds. -/
def getLodLevelForDistance (levels : List LodTier) (d : JSNum) : ℕ :=
  lodLevelSearch d (levels.length - 1) levels 0

/-- The mutable state of `LODManager` that `updateLOD` consults:
`pointCloud`/`originalGeometry` presence is collapsed into `hasCloud`;
`LODPointCloudViewer`'s manager has no `isUpdating` flag, i.e. it is
the special case `isUpdating = false`. -/
structure LODState where
  currentLodLevel : ℕ
  hasCloud : Bool
  isUpdating : Bool
deriving DecidableEq

/-- `updateLOD` (PointCloudViewer.js lines 554-567, LODPointCloudViewer.js
lines 79-89): returns the successor state together with a flag telling
whether `applyLOD` was invoked (a resample). `currentLodLevel` is assigned
before `applyLOD` starts, exactly as in the source. -/
def updateLOD (levels : List LodTier) (s : LODState) (d : JSNum) : LODState × Bool :=
  if !s.hasCloud || s.isUpdating then (s, false)
  else
    let newLodLevel := getLodLevelForDistance levels d
    if newLodLevel ≠ s.currentLodLevel then
      ({ s with currentLodLevel := newLodLevel }, true)
    else (s, false)

/-- The sampling stride of `applyLOD` (PointCloudViewer.js line 598,
LODPointCloudViewer.js line 117): `Math.max(1, Math.floor(pointCount / pointLimit))`. -/
def applyLODStride (pointCount pointLimit : ℕ) : ℕ :=
  max 1 (pointCount / pointLimit)

/-- The sampled point count of `applyLOD` (PointCloudViewer.js line 599,
LODPointCloudViewer.js line 118): `Math.floor(pointCount / step)`. -/
def applyLODSampledCount (pointCount pointLimit : ℕ) : ℕ :=
  pointCount / applyLODStride pointCount pointLimit

/-- Failure kinds of a load.  The source throws `Error` objects with
distinct messages; each kind below corresponds to one throw site:
`invalidSignature` to the magic-number check, `unsupportedVersion` to the
version check, `bufferTooShort` to a caught out-of-range `DataView` read
inside `parseLASHeader`, and `noPointsDecoded` to the
`points.length === 0` check of `loadLASFile`. -/
inductive LASError where
  | invalidSignature : LASError
  | unsupportedVersion : LASError
  | bufferTooShort : LASError
  | noPointsDecoded : LASError
deriving DecidableEq

instance instDecidableEqExcept {ε α : Type _} [DecidableEq ε] [DecidableEq α] :
    DecidableEq (Except ε α) := fun x y =>
  match x, y with
  | .ok u, .ok v => decidable_of_iff (u = v) (by simp)
  | .error u, .error v => decidable_of_iff (u = v) (by simp)
  | .ok _, .error _ => .isFalse fun h => Except.noConfusion h
  | .error _, .ok _ => .isFalse fun h => Except.noConfusion h

namespace PointCloudViewer

/-- The header record returned by `parseLASHeader`
(PointCloudViewer.js lines 398-418).  The twelve `Float64` fields hold
the raw 64-bit little-endian bit patterns of the bytes read by
`getFloat64`; `interpF64` recovers their numeric values. -/
structure LASHeader where
  versionMajor : ℕ
  versionMinor : ℕ
  pointDataFormat : ℕ
  pointDataRecordLength : ℕ
  numberOfPointRecords : ℕ
  totalPoints : ℕ
  xScale : ℕ
  yScale : ℕ
  zScale : ℕ
  xOffset : ℕ
  yOffset : ℕ
  zOffset : ℕ
  maxX : ℕ
  minX : ℕ
  maxY : ℕ
  minY : ℕ
  maxZ : ℕ
  minZ : ℕ
  pointDataOffset : ℕ
deriving DecidableEq

/-- The field reads of `parseLASHeader` performed after the signature and
version checks succeed (PointCloudViewer.js lines 349-418).  The source
reads each field with an individually bounds-checked `DataView` access
and converts any `RangeError` into a `null` result, so the parse
succeeds exactly when every read is in bounds; the model checks the
combined bound once (`255` bytes when the version-1.4 extended count at
offsets 247/251 is read, `227` otherwise, the furthest float field
ending at `219 + 8`).  For version 1.4 the extended 64-bit point count
is the two 32-bit halves combined as `low + high * 2^32`; when positive
it overrides the 32-bit count at offset 107. -/
def parseHeaderFields (buf : List ℕ) (vMaj vMin : ℕ) : Option LASHeader :=
  if (if vMaj = 1 ∧ 4 ≤ vMin then 255 else 227) ≤ buf.length then
    let numberOfPointRecords := leVal buf 107 4
    let extended :=
      if vMaj = 1 ∧ 4 ≤ vMin then leVal buf 247 4 + leVal buf 251 4 * 4294967296
      else 0
    some ⟨vMaj, vMin, leVal buf 104 1, leVal buf 105 2, numberOfPointRecords,
          if 0 < extended then extended else numberOfPointRecords,
          leVal buf 131 8, leVal buf 139 8, leVal buf 147 8, leVal buf 155 8,
          leVal buf 163 8, leVal buf 171 8, leVal buf 179 8, leVal buf 187 8,
          leVal buf 195 8, leVal buf 203 8, leVal buf 211 8, leVal buf 219 8,
          leVal buf 96 4⟩
  else none

/-- `parseLASHeader` (PointCloudViewer.js lines 325-423): reads the
4-byte magic (bytes 0-3, so the buffer must hold at least 4 bytes, else
the caught `RangeError` aborts the parse) and checks it against
`"LASF"` (byte values 76,65,83,70), then reads the version bytes at
offsets 24 and 25 (requiring 26 bytes) and checks `versionMajor = 1`
and `versionMinor ≤ 4`, then reads the remaining fields.  A thrown
error is reported as the corresponding `LASError` (the source converts
it to a `null` return and the caller aborts). -/
def parseLASHeader (buf : List ℕ) : Except LASError LASHeader :=
  if 4 ≤ buf.length then
    if getv buf 0 = 76 ∧ getv buf 1 = 65 ∧ getv buf 2 = 83 ∧ getv buf 3 = 70 then
      if 26 ≤ buf.length then
        if getv buf 24 ≠ 1 ∨ 4 < getv buf 25 then .error .unsupportedVersion
        else
          match parseHeaderFields buf (getv buf 24) (getv buf 25) with
          | some h => .ok h
          | none => .error .bufferTooShort
      else .error .bufferTooShort
    else .error .invalidSignature
  else .error .bufferTooShort

/-- The record formats treated as carrying RGB colour
(PointCloudViewer.js line 461). -/
def colorFormats : List ℕ := [2, 3, 5, 6, 7, 8, 10]

/-- The colour-offset switch of `parseLASPoints`
(PointCloudViewer.js lines 462-487); `20` is the initial default. -/
def colorOffsetOf (pointDataFormat : ℕ) : ℕ :=
  match pointDataFormat with
  | 2 => 20
  | 3 => 28
  | 5 => 28
  | 6 => 28
  | 7 => 28
  | 8 => 30
  | 10 => 28
  | _ => 20

/-- One decoded point: raw integer coordinates plus the optional
normalized RGB triple (set together in the source as
`point.red/green/blue`). -/
structure LASPoint where
  x : ℤ
  y : ℤ
  z : ℤ
  rgb : Option (ℚ × ℚ × ℚ)
deriving DecidableEq

/-- One iteration body of the `parseLASPoints` loop
(PointCloudViewer.js lines 450-512): reads the three `Int32` coordinates
(`none`, i.e. the caught `RangeError` that breaks the loop, when the
record's 12 coordinate bytes do not fit), then attaches the 16-bit RGB
triple normalized by 65535 when the format carries colour and the colour
bytes satisfy the source's strict bound
`recordOffset + colorOffset + 6 < buf.length`. -/
def decodeRecord (buf : List ℕ) (hdr : LASHeader) (i : ℕ) : Option LASPoint :=
  let recordOffset := hdr.pointDataOffset + i * hdr.pointDataRecordLength
  match readI32 buf recordOffset, readI32 buf (recordOffset + 4),
        readI32 buf (recordOffset + 8) with
  | some x, some y, some z =>
    if hdr.pointDataFormat ∈ colorFormats then
      let colorOffset := colorOffsetOf hdr.pointDataFormat
      if recordOffset + colorOffset + 6 < buf.length then
        some { x, y, z,
               rgb := some ((leVal buf (recordOffset + colorOffset) 2 : ℚ) / 65535,
                            (leVal buf (recordOffset + colorOffset + 2) 2 : ℚ) / 65535,
                            (leVal buf (recordOffset + colorOffset + 4) 2 : ℚ) / 65535) }
      else some { x, y, z, rgb := none }
    else some { x, y, z, rgb := none }
  | _, _, _ => none

/-- The decode loop of `parseLASPoints` (PointCloudViewer.js
lines 449-522), with an explicit fuel (structural bound on the number of
iterations; the wrapper passes `maxInit + 1`, enough for any positive
step).  A failed coordinate read breaks the loop.  After a point is
pushed, the progress log at line 516 references the undefined variable
`maxPoints` whenever `i > 0 && i % 100000 === 0`; the resulting
`ReferenceError` is caught by the same `try/catch` and breaks the loop,
so such an index is the last one visited. -/
def pointsLoopAux (buf : List ℕ) (hdr : LASHeader) (maxInit stp : ℕ) :
    ℕ → ℕ → List LASPoint
  | 0, _ => []
  | fuel + 1, i =>
    if i < maxInit then
      match decodeRecord buf hdr i with
      | some p =>
        if 0 < i ∧ i % 100000 = 0 then [p]
        else p :: pointsLoopAux buf hdr maxInit stp fuel (i + stp)
      | none => []
    else []

/-- The decode loop of `parseLASPoints` started at index `i`:
`for (; i < maxInit; i += stp)` with the body of `pointsLoopAux`. -/
def pointsLoop (buf : List ℕ) (hdr : LASHeader) (maxInit stp : ℕ) (i : ℕ) :
    List LASPoint :=
  pointsLoopAux buf hdr maxInit stp (maxInit + 1) i

/-- `parseLASPoints` (PointCloudViewer.js lines 431-526): caps the
initial decode at 5,000,000 records, chooses
`step = max(1, floor(totalPoints / maxInitialPoints))` and runs the loop
with bound `maxInitialPoints`. -/
def parseLASPoints (buf : List ℕ) (hdr : LASHeader) : List LASPoint :=
  let maxInitialPoints := min hdr.totalPoints 5000000
  let stp := max 1 (hdr.totalPoints / maxInitialPoints)
  pointsLoop buf hdr maxInitialPoints stp 0

/-- The record indices the `parseLASPoints` loop visits when every
record read succeeds (a buffer holding all records), including the stop
caused by the crashing progress log at positive multiples of 100000.
Structured like `pointsLoopAux` with an explicit iteration bound. -/
def visitedLoopPCVAux (maxInit stp : ℕ) : ℕ → ℕ → List ℕ
  | 0, _ => []
  | fuel + 1, i =>
    if i < maxInit then
      if 0 < i ∧ i % 100000 = 0 then [i]
      else i :: visitedLoopPCVAux maxInit stp fuel (i + stp)
    else []

/-- The visited-index sequence of the `parseLASPoints` loop of
`PointCloudViewer.js`, from index `i`. -/
def visitedLoopPCV (maxInit stp : ℕ) (i : ℕ) : List ℕ :=
  visitedLoopPCVAux maxInit stp (maxInit + 1) i

/-- Visited record indices of `PointCloudViewer.parseLASPoints` as a
function of the header's effective point count (cap 5,000,000). -/
def visitedIndicesPCV (totalPoints : ℕ) : List ℕ :=
  visitedLoopPCV (min totalPoints 5000000)
    (max 1 (totalPoints / min totalPoints 5000000)) 0

/-- The height-gradient fallback colour of `loadLASFile`
(PointCloudViewer.js lines 296-301):
`t = (z - minZ) / (maxZ - minZ)`, colour `(t, 1 - t, 0.5)`. -/
def heightColor (minZ maxZ zpos : ℚ) : ℚ × ℚ × ℚ :=
  let normalizedHeight := (zpos - minZ) / (maxZ - minZ)
  (normalizedHeight, 1 - normalizedHeight, 1 / 2)

/-- The colour chosen for one point by the assembly loop of `loadLASFile`
(PointCloudViewer.js lines 290-301): the decoded RGB triple when present,
the height gradient otherwise. -/
def pointColor (minZ maxZ zpos : ℚ) (p : LASPoint) : ℚ × ℚ × ℚ :=
  match p.rgb with
  | some c => c
  | none => heightColor minZ maxZ zpos

/-- The parallel flat buffers built by `loadLASFile`
(PointCloudViewer.js lines 277-305), one triple per decoded point. -/
structure DecodedBuffers where
  positions : List (ℚ × ℚ × ℚ)
  colors : List (ℚ × ℚ × ℚ)
deriving DecidableEq

/-- The position/colour assembly loop of `loadLASFile`
(PointCloudViewer.js lines 281-302): `position = raw * scale + offset`
per axis and `pointColor` per point.  The scale, offset and Z-bound
fields are interpreted as exact rationals; `none` when one of them is a
`NaN` or an infinity (the model covers finite-valued headers only). -/
def assemblePoints (hdr : LASHeader) (pts : List LASPoint) : Option DecodedBuffers := do
  let xs ← interpF64 hdr.xScale
  let ys ← interpF64 hdr.yScale
  let zs ← interpF64 hdr.zScale
  let xo ← interpF64 hdr.xOffset
  let yo ← interpF64 hdr.yOffset
  let zo ← interpF64 hdr.zOffset
  let mnz ← interpF64 hdr.minZ
  let mxz ← interpF64 hdr.maxZ
  pure { positions := pts.map fun p =>
           ((p.x : ℚ) * xs + xo, (p.y : ℚ) * ys + yo, (p.z : ℚ) * zs + zo),
         colors := pts.map fun p =>
           pointColor mnz mxz ((p.z : ℚ) * zs + zo) p }

/-- The failure-sensitive part of `loadLASFile`
(PointCloudViewer.js lines 246-318): parse the header (a `null` header
aborts), decode the points, and fail with `noPointsDecoded` when the
loop produced no points.  Only a success reaches `createPointCloud`. -/
def loadLASCore (buf : List ℕ) : Except LASError (LASHeader × List LASPoint) :=
  match parseLASHeader buf with
  | .error e => .error e
  | .ok hdr =>
    let pts := parseLASPoints buf hdr
    if pts.isEmpty then .error .noPointsDecoded else .ok (hdr, pts)

/-- The displayed state of the viewer: the current point cloud, if any
(`currentPointCloudRef` plus its decoded buffers). -/
structure ViewerState where
  currentPointCloud : Option (LASHeader × List LASPoint)
deriving DecidableEq

/-- One `loadLASFile` call as a transition on the viewer state:
`createPointCloud` (PointCloudViewer.js lines 669-698), the only place
that removes and replaces the current cloud, runs exactly when
`loadLASCore` succeeds; every failure leaves the state untouched. -/
def loadLASFileStep (st : ViewerState) (buf : List ℕ) :
    ViewerState × Except LASError Unit :=
  match loadLASCore buf with
  | .ok r => ({ currentPointCloud := some r }, .ok ())
  | .error e => (st, .error e)

/-- The colour rule of the decoder for one visited record, as the code
implements it: the RGB triple is attached iff the format carries colour
and the colour bytes satisfy the source's strict bound; an attached
triple is the three 16-bit reads normalized by 65535; a missing triple
makes the assembly use the height gradient; and a missing triple does
not stop the loop (only the crashing progress log does). -/
def colorRuleHolds (buf : List ℕ) (hdr : LASHeader) (i : ℕ) (p : LASPoint) : Prop :=
  (p.rgb = none ↔
    ¬(hdr.pointDataFormat ∈ colorFormats ∧
      hdr.pointDataOffset + i * hdr.pointDataRecordLength +
        colorOffsetOf hdr.pointDataFormat + 6 < buf.length))
  ∧ (∀ c, p.rgb = some c →
      c = ((leVal buf (hdr.pointDataOffset + i * hdr.pointDataRecordLength +
              colorOffsetOf hdr.pointDataFormat) 2 : ℚ) / 65535,
           (leVal buf (hdr.pointDataOffset + i * hdr.pointDataRecordLength +
              colorOffsetOf hdr.pointDataFormat + 2) 2 : ℚ) / 65535,
           (leVal buf (hdr.pointDataOffset + i * hdr.pointDataRecordLength +
              colorOffsetOf hdr.pointDataFormat + 4) 2 : ℚ) / 65535))
  ∧ (∀ minZ maxZ zpos, p.rgb = none →
      pointColor minZ maxZ zpos p =
        ((zpos - minZ) / (maxZ - minZ), 1 - (zpos - minZ) / (maxZ - minZ), 1 / 2))
  ∧ (∀ maxInit stp, i < maxInit → 0 < stp → ¬(0 < i ∧ i % 100000 = 0) →
      pointsLoop buf hdr maxInit stp i = p :: pointsLoop buf hdr maxInit stp (i + stp))

/-- The invariant of the decoded buffers claimed by the specification,
amended: the two buffers are parallel; every RGB-derived colour — a
decoded point carrying an RGB triple is assembled with exactly that
triple, whatever the gradient parameters — has all components in
`[0, 1]` unconditionally; and every colour of the buffer (gradient
fallbacks included) lies in `[0, 1]` provided the fallback inputs are
well posed (finite bounds with `minZ < maxZ` and every fallback point's
height inside the bounds). -/
def decodedInvariant (hdr : LASHeader) (pts : List LASPoint)
    (bufs : DecodedBuffers) : Prop :=
  bufs.positions.length = bufs.colors.length
  ∧ (∀ p ∈ pts, ∀ c : ℚ × ℚ × ℚ, p.rgb = some c →
      (∀ mnz mxz zpos : ℚ, pointColor mnz mxz zpos p = c)
      ∧ (0 ≤ c.1 ∧ c.1 ≤ 1 ∧ 0 ≤ c.2.1 ∧ c.2.1 ≤ 1 ∧ 0 ≤ c.2.2 ∧ c.2.2 ≤ 1))
  ∧ (∀ mnz mxz zs zo,
      interpF64 hdr.minZ = some mnz → interpF64 hdr.maxZ = some mxz →
      interpF64 hdr.zScale = some zs → interpF64 hdr.zOffset = some zo →
      mnz < mxz →
      (∀ p ∈ pts, p.rgb = none →
        mnz ≤ (p.z : ℚ) * zs + zo ∧ (p.z : ℚ) * zs + zo ≤ mxz) →
      ∀ c ∈ bufs.colors,
        0 ≤ c.1 ∧ c.1 ≤ 1 ∧ 0 ≤ c.2.1 ∧ c.2.1 ≤ 1 ∧ 0 ≤ c.2.2 ∧ c.2.2 ≤ 1)

end PointCloudViewer

namespace FileUpload

/-- The colour-offset switch inside `FileUpload.parseLASPoints`
(FileUpload.js lines 388-410); the switch has no default, so formats
outside the listed cases leave the offset `undefined` (`none`). -/
def parseColorOffset (pointDataFormat : ℕ) : Option ℕ :=
  match pointDataFormat with
  | 2 => some 20
  | 3 => some 28
  | 5 => some 28
  | 6 => some 20
  | 7 => some 28
  | 8 => some 30
  | 10 => some 20
  | _ => none

/-- `getColorOffset` (FileUpload.js lines 882-893). -/
def getColorOffset (pointDataFormat : ℕ) : ℕ :=
  match pointDataFormat with
  | 2 => 20
  | 3 => 20
  | 5 => 20
  | 6 => 20
  | 7 => 20
  | 8 => 30
  | 10 => 20
  | _ => 20

/-- The record indices the `FileUpload.parseLASPoints` loop
(FileUpload.js lines 366-452) visits when every record fits in the
buffer: its progress log is well formed and a caught error past index
1000 `continue`s, so the plain stride sequence below `maxInit` is
visited. -/
def visitedLoopFUAux (maxInit stp : ℕ) : ℕ → ℕ → List ℕ
  | 0, _ => []
  | fuel + 1, i =>
    if i < maxInit then i :: visitedLoopFUAux maxInit stp fuel (i + stp)
    else []

/-- The visited-index sequence of `FileUpload.parseLASPoints`, from
index `i`. -/
def visitedLoopFU (maxInit stp : ℕ) (i : ℕ) : List ℕ :=
  visitedLoopFUAux maxInit stp (maxInit + 1) i

/-- Visited record indices of `FileUpload.parseLASPoints` as a function
of the header's point count (cap 2,000,000, FileUpload.js lines 348-349). -/
def visitedIndicesFU (totalPoints : ℕ) : List ℕ :=
  visitedLoopFU (min totalPoints 2000000)
    (max 1 (totalPoints / min totalPoints 2000000)) 0

end FileUpload

namespace PointCloudViewer

/-- A 255-byte version 1.4 buffer: magic `"LASF"`, 32-bit point count 17
at offset 107, extended halves 5 (offset 247) and 1 (offset 251). -/
def bufC2 : List ℕ :=
  (List.range 255).map fun i =>
    if i = 0 then 76 else if i = 1 then 65 else if i = 2 then 83
    else if i = 3 then 70 else if i = 24 then 1 else if i = 25 then 4
    else if i = 107 then 17 else if i = 247 then 5 else if i = 251 then 1
    else 0

/-- The header `parseLASHeader` produces for `bufC2`: the extended count
`5 + 1 * 2^32 = 4294967301` overrides the 32-bit count 17. -/
def hdrC2 : LASHeader :=
  ⟨1, 4, 0, 0, 17, 4294967301, 0, 0, 0, 0, 0, 0, 0, 0, 0, 0, 0, 0, 0⟩

/-- A 26-byte all-zero record buffer: with format 2 and the record at
offset 0, the colour bytes end exactly at the buffer end
(`0 + 20 + 6 = 26 = length`). -/
def bufC5 : List ℕ := List.replicate 26 0

/-- Format-2 header with `pointDataOffset = 0` and one 26-byte record. -/
def hdrC5 : LASHeader := ⟨1, 2, 2, 26, 1, 1, 0, 0, 0, 0, 0, 0, 0, 0, 0, 0, 0, 0, 0⟩

/-- The point the decoder produces for `bufC5`: colour missing although
the six colour bytes do not exceed the buffer. -/
def ptC5 : LASPoint := ⟨0, 0, 0, none⟩

/-- Like `bufC5` with one extra byte, so the strict bound holds and the
colour is read. -/
def bufC5w : List ℕ := List.replicate 27 0

/-- The point decoded from `bufC5w`: black colour `(0,0,0)` attached. -/
def ptC5w : LASPoint := ⟨0, 0, 0, some (0, 0, 0)⟩

/-- The IEEE-754 binary64 bit pattern of the value 1.0. -/
def oneBits : ℕ := 4607182418800017408

/-- A 247-byte version 1.2 file: format 0, record length 20, one record
at offset 227, `zScale = 1.0`, `maxZ = 1.0`, `minZ = 0.0`, and a raw
`z = 5` in the record, so the decoded height 5 lies far above `maxZ`. -/
def bufC7 : List ℕ :=
  (List.range 247).map fun i =>
    if i = 0 then 76 else if i = 1 then 65 else if i = 2 then 83
    else if i = 3 then 70 else if i = 24 then 1 else if i = 25 then 2
    else if i = 96 then 227 else if i = 105 then 20 else if i = 107 then 1
    else if i = 153 then 240 else if i = 154 then 63
    else if i = 217 then 240 else if i = 218 then 63
    else if i = 235 then 5 else 0

/-- The header parsed from `bufC7`. -/
def hdrC7 : LASHeader :=
  ⟨1, 2, 0, 20, 1, 1, 0, 0, oneBits, 0, 0, 0, 0, 0, 0, 0, oneBits, 0, 227⟩

/-- The single point decoded from `bufC7`. -/
def ptC7 : LASPoint := ⟨0, 0, 5, none⟩

/-- The buffers assembled from `bufC7`: the gradient colour
`(5, -4, 1/2)` leaves `[0, 1]`. -/
def bufsC7 : DecodedBuffers := ⟨[(0, 0, 5)], [(5, -4, 1 / 2)]⟩

/-- Like `bufC7` but with raw `z = 0`, inside the `[minZ, maxZ]` bounds. -/
def bufC7w : List ℕ :=
  (List.range 247).map fun i =>
    if i = 0 then 76 else if i = 1 then 65 else if i = 2 then 83
    else if i = 3 then 70 else if i = 24 then 1 else if i = 25 then 2
    else if i = 96 then 227 else if i = 105 then 20 else if i = 107 then 1
    else if i = 153 then 240 else if i = 154 then 63
    else if i = 217 then 240 else if i = 218 then 63
    else 0

/-- The single point decoded from `bufC7w`. -/
def ptC7w : LASPoint := ⟨0, 0, 0, none⟩

/-- The buffers assembled from `bufC7w`: all components in `[0, 1]`. -/
def bufsC7w : DecodedBuffers := ⟨[(0, 0, 0)], [(0, 1, 1 / 2)]⟩

/-- A viewer state already displaying a point cloud. -/
def stC9 : ViewerState := ⟨some (⟨1, 2, 0, 0, 0, 0, 0, 0, 0, 0, 0, 0, 0, 0, 0, 0, 0, 0, 0⟩,
  [⟨1, 2, 3, none⟩])⟩

end PointCloudViewer

/-! ### Helper lemmas -/

theorem getv_lt_256 {buf : List ℕ} (h256 : ∀ b ∈ buf, b < 256) (i : ℕ) :
    getv buf i < 256 := by
  unfold getv
  rcases h : buf.get? i with _ | x
  · rw [List.getD_eq_getD_get?, h]; simp
  · rw [List.getD_eq_getD_get?, h]
    exact h256 x (List.get?_mem h)

theorem leVal_two_lt {buf : List ℕ} (h256 : ∀ b ∈ buf, b < 256) (off : ℕ) :
    leVal buf off 2 < 65536 := by
  have h0 := getv_lt_256 h256 off
  have h1 := getv_lt_256 h256 (off + 1)
  simp only [leVal]
  omega

theorem lodLevelSearch_lt_or_fallback (d : JSNum) (fb : ℕ) :
    ∀ (L : List LodTier) (i : ℕ),
      lodLevelSearch d fb L i < i + L.length ∨ lodLevelSearch d fb L i = fb := by
  intro L
  induction L with
  | nil => intro i; right; rfl
  | cons t rest ih =>
    intro i
    simp only [lodLevelSearch]
    split
    · left; simp
    · rcases ih (i + 1) with hlt | hfb
      · left; simp only [List.length_cons]; omega
      · right; exact hfb

theorem getLodLevelForDistance_lt_length (levels : List LodTier) (d : JSNum)
    (h : levels ≠ []) : getLodLevelForDistance levels d < levels.length := by
  have hlen : 0 < levels.length := List.length_pos.mpr h
  unfold getLodLevelForDistance
  rcases lodLevelSearch_lt_or_fallback d (levels.length - 1) levels 0 with hlt | hfb
  · simpa using hlt
  · rw [hfb]; omega

theorem visitedLoopPCVAux_mem_lt (m s : ℕ) :
    ∀ (fuel i j : ℕ), j ∈ PointCloudViewer.visitedLoopPCVAux m s fuel i → j < m := by
  intro fuel
  induction fuel with
  | zero => intro i j h; simp [PointCloudViewer.visitedLoopPCVAux] at h
  | succ f ih =>
    intro i j h
    rw [PointCloudViewer.visitedLoopPCVAux] at h
    split at h
    · split at h
      · next hm _ => simp at h; omega
      · next hm _ =>
        rcases List.mem_cons.mp h with rfl | htail
        · exact hm
        · exact ih (i + s) j htail
    · simp at h

theorem visitedLoopFUAux_mem_lt (m s : ℕ) :
    ∀ (fuel i j : ℕ), j ∈ FileUpload.visitedLoopFUAux m s fuel i → j < m := by
  intro fuel
  induction fuel with
  | zero => intro i j h; simp [FileUpload.visitedLoopFUAux] at h
  | succ f ih =>
    intro i j h
    rw [FileUpload.visitedLoopFUAux] at h
    split at h
    · next hm =>
      rcases List.mem_cons.mp h with rfl | htail
      · exact hm
      · exact ih (i + s) j htail
    · simp at h

theorem pointsLoopAux_fuel_congr (buf : List ℕ) (hdr : PointCloudViewer.LASHeader)
    (m s : ℕ) (hs : 0 < s) :
    ∀ (f g i : ℕ), m - i < f → m - i < g →
      PointCloudViewer.pointsLoopAux buf hdr m s f i =
      PointCloudViewer.pointsLoopAux buf hdr m s g i := by
  intro f
  induction f with
  | zero => intro g i hf; omega
  | succ f ih =>
    intro g i hf hg
    match g, hg with
    | g + 1, hg =>
      rw [PointCloudViewer.pointsLoopAux, PointCloudViewer.pointsLoopAux]
      split
      · next hm =>
        rcases hdec : PointCloudViewer.decodeRecord buf hdr i with _ | p
        · rfl
        · simp only []
          split
          · rfl
          · rw [ih g (i + s) (by omega) (by omega)]
      · rfl

theorem pointsLoopAux_mem_decode (buf : List ℕ) (hdr : PointCloudViewer.LASHeader)
    (m s : ℕ) :
    ∀ (fuel i : ℕ) (p : PointCloudViewer.LASPoint),
      p ∈ PointCloudViewer.pointsLoopAux buf hdr m s fuel i →
      ∃ j, PointCloudViewer.decodeRecord buf hdr j = some p := by
  intro fuel
  induction fuel with
  | zero => intro i p h; simp [PointCloudViewer.pointsLoopAux] at h
  | succ f ih =>
    intro i p h
    rw [PointCloudViewer.pointsLoopAux] at h
    split at h
    · rcases hdec : PointCloudViewer.decodeRecord buf hdr i with _ | q
      · rw [hdec] at h; simp at h
      · rw [hdec] at h
        simp only [] at h
        split at h
        · simp at h; exact ⟨i, h ▸ hdec⟩
        · rcases List.mem_cons.mp h with rfl | htail
          · exact ⟨i, hdec⟩
          · exact ih (i + s) p htail
    · simp at h

theorem decodeRecord_rgb_shape {buf : List ℕ} {hdr : PointCloudViewer.LASHeader}
    {j : ℕ} {p : PointCloudViewer.LASPoint} (h256 : ∀ b ∈ buf, b < 256)
    (h : PointCloudViewer.decodeRecord buf hdr j = some p) :
    p.rgb = none ∨ ∃ a b g : ℕ, a < 65536 ∧ b < 65536 ∧ g < 65536 ∧
      p.rgb = some ((a : ℚ) / 65535, (b : ℚ) / 65535, (g : ℚ) / 65535) := by
  simp only [PointCloudViewer.decodeRecord] at h
  split at h
  · split at h
    · split at h
      · injection h with h
        subst h
        right
        exact ⟨_, _, _, leVal_two_lt h256 _, leVal_two_lt h256 _,
          leVal_two_lt h256 _, rfl⟩
      · injection h with h
        subst h
        left; rfl
    · injection h with h
      subst h
      left; rfl
  · exact Option.noConfusion h

theorem readU8_eq_getv {buf : List ℕ} {i : ℕ} (h : i + 1 ≤ buf.length) :
    readU8 buf i = some (getv buf i) := by
  simp [readU8, readLE, h, leVal]

/-! ### Claim theorems -/

/-- C1: the claim says the decode loops visit every stride-th record of
the whole file, spanning `[0, N)`.  The code bounds the loop by
`maxInitialPoints` instead, so for a 10,000,000-point file the
`PointCloudViewer` loop (cap 5,000,000, stride 2) visits index 0 but
never any index at or above 5,000,000 — in particular not the in-range
stride multiple 6,000,000 — and the `FileUpload` loop (cap 2,000,000,
stride 5) never visits it either: only a prefix of the file is decoded. -/
theorem c1_decode_visits_only_prefix :
    (0 ∈ PointCloudViewer.visitedIndicesPCV 10000000)
    ∧ ((6000000 ∈ PointCloudViewer.visitedIndicesPCV 10000000) = False)
    ∧ ((6000000 ∈ FileUpload.visitedIndicesFU 10000000) = False) := by
  refine ⟨by decide, eq_false fun hmem => ?_, eq_false fun hmem => ?_⟩
  · norm_num [PointCloudViewer.visitedIndicesPCV,
      PointCloudViewer.visitedLoopPCV] at hmem
    have := visitedLoopPCVAux_mem_lt 5000000 2 5000001 0 6000000 hmem
    omega
  · norm_num [FileUpload.visitedIndicesFU, FileUpload.visitedLoopFU] at hmem
    have := visitedLoopFUAux_mem_lt 2000000 5 2000001 0 6000000 hmem
    omega

/-- C3, counterexample: with the original count 5,000,000 and the top
`PointCloudViewer` tier budget 2,000,000 (so `budget ≤ n`), the stride
is 2 and `sampledCount = 2,500,000`, which exceeds the budget — the
claimed upper bound `sampledCount ≤ budget` is false. -/
theorem c3_sampled_count_counterexample :
    (lodLevelsPCV.head?).map LodTier.pointLimit = some 2000000
    ∧ 2000000 ≤ 5000000
    ∧ applyLODStride 5000000 2000000 = 2
    ∧ applyLODSampledCount 5000000 2000000 = 2500000
    ∧ 2000000 < applyLODSampledCount 5000000 2000000 := by decide

/-- C3 amended: for `0 < budget ≤ n`, `applyLOD` computes
`stride = max(1, floor(n / budget))` and
`sampledCount = floor(n / stride)`, and the result satisfies
`budget ≤ sampledCount < 2 * budget` (hence `budget / 2 < sampledCount`,
but the claimed upper bound must be weakened from `budget` to
`2 * budget - 1`). -/
theorem c3_sampled_count_bounds (n budget : ℕ) (hb : 0 < budget)
    (hn : budget ≤ n) :
    budget / 2 < applyLODSampledCount n budget
    ∧ budget ≤ applyLODSampledCount n budget
    ∧ applyLODSampledCount n budget < 2 * budget := by
  have hs : 1 ≤ n / budget := (Nat.one_le_div_iff hb).mpr hn
  have hstride : applyLODStride n budget = n / budget :=
    max_eq_right hs
  have hsc : applyLODSampledCount n budget = n / (n / budget) := by
    rw [applyLODSampledCount, hstride]
  have hlow : budget ≤ n / (n / budget) := by
    rw [Nat.le_div_iff_mul_le (by omega)]
    calc budget * (n / budget) = n / budget * budget := Nat.mul_comm _ _
      _ ≤ n := Nat.div_mul_le_self n budget
  have hmod : n = budget * (n / budget) + n % budget := (Nat.div_add_mod n budget).symm
  have hmodlt : n % budget < budget := Nat.mod_lt _ hb
  have hble : budget ≤ budget * (n / budget) := Nat.le_mul_of_pos_right budget (by omega)
  have hhigh : n / (n / budget) < 2 * budget := by
    rw [Nat.div_lt_iff_lt_mul (by omega : 0 < n / budget)]
    have hassoc : 2 * budget * (n / budget) = 2 * (budget * (n / budget)) := by ring
    omega
  have hhalf : budget / 2 < budget := Nat.div_lt_self hb one_lt_two
  exact ⟨by omega, by omega, by omega⟩

/-- C3 witness: `n = 10`, `budget = 3` — stride 3, `sampledCount = 3`,
within the amended bounds. -/
theorem c3_sampled_count_bounds_witness :
    0 < 3 ∧ 3 ≤ 10
    ∧ (3 / 2 < applyLODSampledCount 10 3
       ∧ 3 ≤ applyLODSampledCount 10 3
       ∧ applyLODSampledCount 10 3 < 2 * 3) :=
  ⟨by decide, by decide, c3_sampled_count_bounds 10 3 (by decide) (by decide)⟩

/-- C4, counterexample: the three colour-offset tables are not one fixed
function — for format 3 the `PointCloudViewer` switch gives 28 while
`FileUpload.getColorOffset` gives 20, and for format 6 the
`PointCloudViewer` switch gives 28 while the `FileUpload.parseLASPoints`
switch gives 20. -/
theorem c4_color_offset_counterexample :
    PointCloudViewer.colorOffsetOf 3 = 28
    ∧ FileUpload.getColorOffset 3 = 20
    ∧ (PointCloudViewer.colorOffsetOf 3 = FileUpload.getColorOffset 3) = False
    ∧ FileUpload.parseColorOffset 6 = some 20
    ∧ PointCloudViewer.colorOffsetOf 6 = 28
    ∧ (FileUpload.parseColorOffset 6 = some (PointCloudViewer.colorOffsetOf 6)) = False :=
  ⟨rfl, rfl, eq_false (by decide), rfl, rfl, eq_false (by decide)⟩

/-- C4 amended: each call site computes a fixed function of the format
code, but the three sites agree with each other exactly at format codes
2 and 8 (they disagree at 3, 5, 6, 7 and 10). -/
theorem c4_color_offset_agreement (f : ℕ) (hf : f ∈ PointCloudViewer.colorFormats) :
    (PointCloudViewer.colorOffsetOf f = FileUpload.getColorOffset f
     ∧ FileUpload.parseColorOffset f = some (PointCloudViewer.colorOffsetOf f))
    ↔ (f = 2 ∨ f = 8) := by
  fin_cases hf <;> decide

/-- C4 witness: at format 2 all three tables give offset 20. -/
theorem c4_color_offset_agreement_witness :
    2 ∈ PointCloudViewer.colorFormats
    ∧ ((PointCloudViewer.colorOffsetOf 2 = FileUpload.getColorOffset 2
        ∧ FileUpload.parseColorOffset 2 = some (PointCloudViewer.colorOffsetOf 2))
       ↔ (2 = 2 ∨ 2 = 8)) :=
  ⟨by decide, c4_color_offset_agreement 2 (by decide)⟩

/-- C6: two consecutive `updateLOD` calls at the same distance perform
at most one resample — the second call never invokes `applyLOD` and
leaves the state unchanged, because `currentLodLevel` was already set to
the selected tier by the first call (for every ladder, state and
distance, on both viewers' managers). -/
theorem c6_update_lod_idempotent :
    ∀ (levels : List LodTier) (s : LODState) (d : JSNum),
      (updateLOD levels (updateLOD levels s d).1 d).2 = false
      ∧ (updateLOD levels (updateLOD levels s d).1 d).1 = (updateLOD levels s d).1 := by
  intro levels s d
  unfold updateLOD
  rcases hc : s.hasCloud with _ | _
  · simp [hc]
  · rcases hu : s.isUpdating with _ | _
    · by_cases heq : getLodLevelForDistance levels d = s.currentLodLevel
      · simp [hc, hu, heq]
      · simp [hc, hu, heq]
    · simp [hc, hu]

/-- C9: a failed load (any header-level error or zero decoded points)
leaves the previously displayed point set untouched: the viewer state is
replaced only on a successful `loadLASCore`, inside `createPointCloud`. -/
theorem c9_failed_load_preserves_state (st : PointCloudViewer.ViewerState)
    (buf : List ℕ) (e : LASError)
    (h : (PointCloudViewer.loadLASFileStep st buf).2 = .error e) :
    (PointCloudViewer.loadLASFileStep st buf).1 = st := by
  rcases hr : PointCloudViewer.loadLASCore buf with e2 | r
  · simp [PointCloudViewer.loadLASFileStep, hr]
  · simp only [PointCloudViewer.loadLASFileStep, hr] at h
    exact Except.noConfusion h

/-- C9 witness: loading an empty buffer over a displayed cloud fails
with `bufferTooShort` and preserves the displayed cloud. -/
theorem c9_failed_load_preserves_state_witness :
    (PointCloudViewer.loadLASFileStep PointCloudViewer.stC9 []).2 =
      .error .bufferTooShort
    ∧ (PointCloudViewer.loadLASFileStep PointCloudViewer.stC9 []).1 =
      PointCloudViewer.stC9 :=
  ⟨by decide,
   c9_failed_load_preserves_state PointCloudViewer.stC9 [] .bufferTooShort (by decide)⟩

/-- C10: `getLodLevelForDistance` is total and always returns an index
inside the ladder, on both viewers' six-tier ladders; for `NaN` (which
satisfies no `<=` comparison, not even against the final `Infinity`
tier) the fallback returns the last index, and a negative distance gets
tier 0. -/
theorem c10_lod_level_total :
    (∀ d : JSNum, getLodLevelForDistance lodLevelsPCV d < lodLevelsPCV.length)
    ∧ getLodLevelForDistance lodLevelsPCV .nan = lodLevelsPCV.length - 1
    ∧ getLodLevelForDistance lodLevelsPCV (.fin (-5)) = 0
    ∧ (∀ d : JSNum,
        getLodLevelForDistance lodLevelsLODViewer d < lodLevelsLODViewer.length)
    ∧ getLodLevelForDistance lodLevelsLODViewer .nan = lodLevelsLODViewer.length - 1
    ∧ getLodLevelForDistance lodLevelsLODViewer (.fin (-5)) = 0 := by
  refine ⟨fun d => getLodLevelForDistance_lt_length _ d (by decide), by decide, ?_,
    fun d => getLodLevelForDistance_lt_length _ d (by decide), by decide, ?_⟩
  · show lodLevelSearch (.fin (-5)) _ _ _ = 0
    norm_num [lodLevelSearch, lodLevelsPCV, jle]
  · show lodLevelSearch (.fin (-5)) _ _ _ = 0
    norm_num [lodLevelSearch, lodLevelsLODViewer, jle]

/-- C8: every buffer of at least 4 bytes whose first four bytes are not
the ASCII magic `"LASF"` (byte values 76,65,83,70) makes
`parseLASHeader` fail with `invalidSignature`, and the whole load fails
with that error before any point is decoded. -/
theorem c8_invalid_signature (buf : List ℕ) (hlen : 4 ≤ buf.length)
    (hmagic : ¬(getv buf 0 = 76 ∧ getv buf 1 = 65 ∧ getv buf 2 = 83 ∧ getv buf 3 = 70)) :
    PointCloudViewer.parseLASHeader buf = .error .invalidSignature
    ∧ PointCloudViewer.loadLASCore buf = .error .invalidSignature := by
  have hp : PointCloudViewer.parseLASHeader buf = .error .invalidSignature := by
    unfold PointCloudViewer.parseLASHeader
    rw [if_pos hlen, if_neg hmagic]
  exact ⟨hp, by simp [PointCloudViewer.loadLASCore, hp]⟩

/-- C8 witness: a 1,000-byte all-zero buffer (no signature) is rejected
with `invalidSignature` and decodes nothing. -/
theorem c8_invalid_signature_witness :
    4 ≤ (List.replicate 1000 (0 : ℕ)).length
    ∧ PointCloudViewer.parseLASHeader (List.replicate 1000 0) =
        .error .invalidSignature
    ∧ PointCloudViewer.loadLASCore (List.replicate 1000 0) =
        .error .invalidSignature :=
  ⟨by decide,
   (c8_invalid_signature (List.replicate 1000 0) (by decide) (by decide)).1,
   (c8_invalid_signature (List.replicate 1000 0) (by decide) (by decide)).2⟩

/-- C2: whenever `parseLASHeader` succeeds on a buffer with
`versionMajor = 1` and `versionMinor ≥ 4`, the extended 64-bit point
count is read as the two 32-bit little-endian halves at offsets 247 and
251 combined as `low + high * 2^32`; when that value is nonzero it is
the header's `totalPoints`, while the 32-bit count at offset 107 is kept
separately in `numberOfPointRecords`. -/
theorem c2_extended_count_overrides (buf : List ℕ)
    (hdr : PointCloudViewer.LASHeader)
    (h : PointCloudViewer.parseLASHeader buf = .ok hdr)
    (hmaj : hdr.versionMajor = 1) (hmin : 4 ≤ hdr.versionMinor)
    (lo hi : ℕ) (hlo : readU32 buf 247 = some lo) (hhi : readU32 buf 251 = some hi)
    (hpos : 0 < lo + hi * 4294967296) :
    hdr.totalPoints = lo + hi * 4294967296
    ∧ hdr.numberOfPointRecords = leVal buf 107 4 := by
  unfold PointCloudViewer.parseLASHeader at h
  split_ifs at h with h4 hmagic h26 hver
  rcases hf : PointCloudViewer.parseHeaderFields buf (getv buf 24) (getv buf 25)
    with _ | hh
  · rw [hf] at h; exact Except.noConfusion h
  · rw [hf] at h
    have hhd : hh = hdr := by simpa using h
    subst hhd
    unfold PointCloudViewer.parseHeaderFields at hf
    split_ifs at hf with hcond24 hblen h227
    all_goals simp only [Option.some.injEq] at hf
    all_goals subst hf
    all_goals simp only [] at hmaj hmin ⊢
    all_goals try (exact absurd (show getv buf 24 = 1 ∧ 4 ≤ getv buf 25 from ⟨hmaj, hmin⟩) (by assumption))
    have hlo2 : lo = leVal buf 247 4 := by
      rw [readU32, readLE, if_pos (by omega : 247 + 4 ≤ buf.length)] at hlo
      exact (Option.some.inj hlo).symm
    have hhi2 : hi = leVal buf 251 4 := by
      rw [readU32, readLE, if_pos (by omega : 251 + 4 ≤ buf.length)] at hhi
      exact (Option.some.inj hhi).symm
    rw [← hlo2, ← hhi2, if_pos hpos]
    exact ⟨rfl, by trivial⟩

/-- C2 witness: a 255-byte version-1.4 buffer with 32-bit count 17 and
extended halves 5 and 1 parses to a header whose effective count is
`5 + 1 * 2^32 = 4294967301`, overriding the count 17 at offset 107. -/
theorem c2_extended_count_overrides_witness :
    PointCloudViewer.parseLASHeader PointCloudViewer.bufC2 =
      .ok PointCloudViewer.hdrC2
    ∧ (PointCloudViewer.hdrC2.totalPoints = 5 + 1 * 4294967296
       ∧ PointCloudViewer.hdrC2.numberOfPointRecords =
           leVal PointCloudViewer.bufC2 107 4) :=
  ⟨by decide,
   c2_extended_count_overrides PointCloudViewer.bufC2 PointCloudViewer.hdrC2
     (by decide) (by decide) (by decide) 5 1 (by decide) (by decide) (by decide)⟩

/-- C5, counterexample: with format 2, record offset 0 and a 26-byte
buffer the six colour bytes end exactly at the buffer end — they do not
exceed it, so the claim says the RGB triple is read — yet the decoder
falls back (its bound is strict), producing a point without colour. -/
theorem c5_color_boundary_counterexample :
    PointCloudViewer.decodeRecord PointCloudViewer.bufC5 PointCloudViewer.hdrC5 0 =
      some PointCloudViewer.ptC5
    ∧ PointCloudViewer.ptC5.rgb = none
    ∧ PointCloudViewer.hdrC5.pointDataFormat ∈ PointCloudViewer.colorFormats
    ∧ PointCloudViewer.hdrC5.pointDataOffset +
        0 * PointCloudViewer.hdrC5.pointDataRecordLength +
        PointCloudViewer.colorOffsetOf PointCloudViewer.hdrC5.pointDataFormat + 6 =
        PointCloudViewer.bufC5.length
    ∧ PointCloudViewer.visitedLoopPCV 200001 100000 0 = [0, 100000] := by decide

/-- C5 amended: a visited record gets the RGB triple (the three 16-bit
reads at the format's colour offset, each divided by 65535) iff the
format carries colour and `recordOffset + colorOffset + 6` is strictly
below the buffer length (the claim's condition must include the
exact-fit boundary case among the fallbacks); a point without colour is
assembled with the height gradient `(t, 1-t, 0.5)`,
`t = (z - minZ)/(maxZ - minZ)`; and a truncated colour does not stop the
loop — decoding continues with the next stride index (the only extra
stop is the crashing progress log at positive multiples of 100000). -/
theorem c5_color_rule (buf : List ℕ) (hdr : PointCloudViewer.LASHeader)
    (i : ℕ) (pt : PointCloudViewer.LASPoint)
    (h : PointCloudViewer.decodeRecord buf hdr i = some pt) :
    PointCloudViewer.colorRuleHolds buf hdr i pt := by
  have hcont : ∀ m s, i < m → 0 < s → ¬(0 < i ∧ i % 100000 = 0) →
      PointCloudViewer.pointsLoop buf hdr m s i =
        pt :: PointCloudViewer.pointsLoop buf hdr m s (i + s) := by
    intro m s him hs hcrash
    unfold PointCloudViewer.pointsLoop
    rw [PointCloudViewer.pointsLoopAux, if_pos him, h]
    simp only []
    rw [if_neg hcrash]
    exact congrArg (pt :: ·)
      (pointsLoopAux_fuel_congr buf hdr m s hs m (m + 1) (i + s)
        (by omega) (by omega))
  have hgrad : ∀ minZ maxZ zpos : ℚ, pt.rgb = none →
      PointCloudViewer.pointColor minZ maxZ zpos pt =
        ((zpos - minZ) / (maxZ - minZ), 1 - (zpos - minZ) / (maxZ - minZ), 1 / 2) := by
    intro minZ maxZ zpos hnone
    simp [PointCloudViewer.pointColor, hnone, PointCloudViewer.heightColor]
  simp only [PointCloudViewer.decodeRecord] at h
  split at h
  · split at h
    · next hfmt =>
      split at h
      · next hbnd =>
        injection h with h
        subst h
        exact ⟨by simp [hfmt, hbnd], fun c hc => (Option.some.inj hc).symm,
          hgrad, hcont⟩
      · next hbnd =>
        injection h with h
        subst h
        exact ⟨by simp [hfmt, hbnd], fun c hc => Option.noConfusion hc,
          hgrad, hcont⟩
    · next hfmt =>
      injection h with h
      subst h
      exact ⟨by simp [hfmt], fun c hc => Option.noConfusion hc, hgrad, hcont⟩
  · exact Option.noConfusion h

/-- C5 witness: with one extra byte (27-byte buffer) the strict bound
holds and the all-zero colour `(0, 0, 0)` is read and attached. -/
theorem c5_color_rule_witness :
    PointCloudViewer.decodeRecord PointCloudViewer.bufC5w PointCloudViewer.hdrC5 0 =
      some PointCloudViewer.ptC5w
    ∧ PointCloudViewer.colorRuleHolds PointCloudViewer.bufC5w
        PointCloudViewer.hdrC5 0 PointCloudViewer.ptC5w := by
  have h : PointCloudViewer.decodeRecord PointCloudViewer.bufC5w
      PointCloudViewer.hdrC5 0 = some PointCloudViewer.ptC5w := by
    have hx : readI32 (List.replicate 27 (0 : ℕ)) 0 = some 0 := by decide
    have hy : readI32 (List.replicate 27 (0 : ℕ)) 4 = some 0 := by decide
    have hz : readI32 (List.replicate 27 (0 : ℕ)) 8 = some 0 := by decide
    have hc0 : leVal (List.replicate 27 (0 : ℕ)) 20 2 = 0 := by decide
    have hc2 : leVal (List.replicate 27 (0 : ℕ)) 22 2 = 0 := by decide
    have hc4 : leVal (List.replicate 27 (0 : ℕ)) 24 2 = 0 := by decide
    simp only [PointCloudViewer.decodeRecord, PointCloudViewer.hdrC5,
      PointCloudViewer.bufC5w, PointCloudViewer.ptC5w]
    norm_num [hx, hy, hz, hc0, hc2, hc4, PointCloudViewer.colorFormats,
      PointCloudViewer.colorOffsetOf]
  exact ⟨h, c5_color_rule PointCloudViewer.bufC5w PointCloudViewer.hdrC5 0
    PointCloudViewer.ptC5w h⟩

/-- C7, counterexample: `bufC7` is accepted by the header parser and
decoded to one point whose height 5 lies above the header's `maxZ = 1`;
the unclamped gradient gives the colour `(5, -4, 1/2)` whose second
component is negative — the claimed bound `[0, 1]` fails. -/
theorem c7_gradient_out_of_range_counterexample :
    PointCloudViewer.loadLASCore PointCloudViewer.bufC7 =
      .ok (PointCloudViewer.hdrC7, [PointCloudViewer.ptC7])
    ∧ PointCloudViewer.assemblePoints PointCloudViewer.hdrC7 [PointCloudViewer.ptC7] =
        some PointCloudViewer.bufsC7
    ∧ PointCloudViewer.bufsC7.colors = [(5, -4, 1 / 2)]
    ∧ ((-4 : ℚ) < 0) := by
  refine ⟨by decide, ?_, rfl, by norm_num⟩
  have h1 : interpF64 PointCloudViewer.hdrC7.xScale = some 0 := by
    norm_num [interpF64, PointCloudViewer.hdrC7]
  have h2 : interpF64 PointCloudViewer.hdrC7.zScale = some 1 := by
    norm_num [interpF64, PointCloudViewer.hdrC7, PointCloudViewer.oneBits]
  have h3 : interpF64 PointCloudViewer.hdrC7.maxZ = some 1 := by
    norm_num [interpF64, PointCloudViewer.hdrC7, PointCloudViewer.oneBits]
  simp only [PointCloudViewer.assemblePoints, PointCloudViewer.hdrC7] at h1 h2 h3 ⊢
  rw [h1] at *
  norm_num [h2, h3, PointCloudViewer.pointColor, PointCloudViewer.heightColor,
    PointCloudViewer.ptC7, PointCloudViewer.bufsC7]

/-- C7 amended: for every load accepted end to end, the assembled
position and colour buffers have equal length (one triple per decoded
point); every colour component lies in `[0, 1]` for the RGB path
unconditionally, and for the height-gradient fallback under the
well-posedness conditions `minZ < maxZ` and every fallback point's
height inside `[minZ, maxZ]` (the claim's unconditional `[0, 1]` bound
fails because the gradient is not clamped). -/
theorem c7_decoded_invariant (buf : List ℕ) (hdr : PointCloudViewer.LASHeader)
    (pts : List PointCloudViewer.LASPoint) (bufs : PointCloudViewer.DecodedBuffers)
    (h256 : ∀ b ∈ buf, b < 256)
    (h1 : PointCloudViewer.loadLASCore buf = .ok (hdr, pts))
    (h2 : PointCloudViewer.assemblePoints hdr pts = some bufs) :
    PointCloudViewer.decodedInvariant hdr pts bufs := by
  have hpts : pts = PointCloudViewer.parseLASPoints buf hdr := by
    rcases hph : PointCloudViewer.parseLASHeader buf with e | hdr2
    · simp [PointCloudViewer.loadLASCore, hph] at h1
    · simp only [PointCloudViewer.loadLASCore, hph] at h1
      split_ifs at h1 with hempty
      have h1b : hdr2 = hdr ∧ PointCloudViewer.parseLASPoints buf hdr2 = pts := by
        simpa using h1
      obtain ⟨rfl, h1b⟩ := h1b
      exact h1b.symm
  have hrgbBound : ∀ p ∈ pts, ∀ c : ℚ × ℚ × ℚ, p.rgb = some c →
      0 ≤ c.1 ∧ c.1 ≤ 1 ∧ 0 ≤ c.2.1 ∧ c.2.1 ≤ 1 ∧ 0 ≤ c.2.2 ∧ c.2.2 ≤ 1 := by
    intro p hp c hc
    have hp2 : p ∈ PointCloudViewer.pointsLoopAux buf hdr
        (min hdr.totalPoints 5000000)
        (max 1 (hdr.totalPoints / min hdr.totalPoints 5000000))
        (min hdr.totalPoints 5000000 + 1) 0 := by
      rw [hpts] at hp
      simpa [PointCloudViewer.parseLASPoints, PointCloudViewer.pointsLoop] using hp
    obtain ⟨j, hj⟩ := pointsLoopAux_mem_decode buf hdr _ _ _ _ p hp2
    rcases decodeRecord_rgb_shape h256 hj with hnone | ⟨a, b, g, ha, hb2, hg, hsome⟩
    · rw [hnone] at hc; exact Option.noConfusion hc
    · rw [hsome] at hc
      obtain rfl : ((a : ℚ) / 65535, (b : ℚ) / 65535, (g : ℚ) / 65535) = c :=
        Option.some.inj hc
      have hub : ∀ k : ℕ, k < 65536 → (k : ℚ) / 65535 ≤ 1 := by
        intro k hk
        rw [div_le_one (by norm_num)]
        exact_mod_cast Nat.lt_succ_iff.mp hk
      have hlb : ∀ k : ℕ, (0 : ℚ) ≤ (k : ℚ) / 65535 := fun k =>
        div_nonneg (Nat.cast_nonneg k) (by norm_num)
      exact ⟨hlb a, hub a ha, hlb b, hub b hb2, hlb g, hub g hg⟩
  simp only [PointCloudViewer.assemblePoints, bind, Option.bind_eq_some,
    Option.pure_def, Option.some.injEq] at h2
  obtain ⟨xs, hxs, ys, hys, zs, hzs, xo, hxo, yo, hyo, zo, hzo, mnz, hmnz,
    mxz, hmxz, hb⟩ := h2
  subst hb
  refine ⟨by simp, ?_, ?_⟩
  · intro p hp c hc
    refine ⟨?_, hrgbBound p hp c hc⟩
    intro mnz0 mxz0 zpos0
    simp [PointCloudViewer.pointColor, hc]
  · intro mnz2 mxz2 zs2 zo2 hmnz2 hmxz2 hzs2 hzo2 hlt hfall c hc
    have e1 : mnz2 = mnz := by rw [hmnz] at hmnz2; exact (Option.some.inj hmnz2).symm
    have e2 : mxz2 = mxz := by rw [hmxz] at hmxz2; exact (Option.some.inj hmxz2).symm
    have e3 : zs2 = zs := by rw [hzs] at hzs2; exact (Option.some.inj hzs2).symm
    have e4 : zo2 = zo := by rw [hzo] at hzo2; exact (Option.some.inj hzo2).symm
    subst e1; subst e2; subst e3; subst e4
    simp only [] at hc
    obtain ⟨p, hp, rfl⟩ := List.mem_map.mp hc
    rcases hrgb : p.rgb with _ | c2
    · have hzin := hfall p hp hrgb
      simp only [PointCloudViewer.pointColor, hrgb, PointCloudViewer.heightColor]
      have hD : (0 : ℚ) < mxz2 - mnz2 := by linarith
      have ht0 : 0 ≤ ((p.z : ℚ) * zs2 + zo2 - mnz2) / (mxz2 - mnz2) :=
        div_nonneg (by linarith [hzin.1]) (le_of_lt hD)
      have ht1 : ((p.z : ℚ) * zs2 + zo2 - mnz2) / (mxz2 - mnz2) ≤ 1 := by
        rw [div_le_one hD]; linarith [hzin.2]
      exact ⟨ht0, ht1, by simp; linarith, by simp; linarith, by norm_num, by norm_num⟩
    · simp only [PointCloudViewer.pointColor, hrgb]
      exact hrgbBound p hp c2 hrgb

/-- C7 witness: the well-posed file `bufC7w` (height 0 inside
`[minZ, maxZ] = [0, 1]`) satisfies the amended invariant; its single
colour is the gradient `(0, 1, 1/2)`. -/
theorem c7_decoded_invariant_witness :
    PointCloudViewer.loadLASCore PointCloudViewer.bufC7w =
      .ok (PointCloudViewer.hdrC7, [PointCloudViewer.ptC7w])
    ∧ PointCloudViewer.assemblePoints PointCloudViewer.hdrC7
        [PointCloudViewer.ptC7w] = some PointCloudViewer.bufsC7w
    ∧ PointCloudViewer.decodedInvariant PointCloudViewer.hdrC7
        [PointCloudViewer.ptC7w] PointCloudViewer.bufsC7w := by
  have ha : PointCloudViewer.assemblePoints PointCloudViewer.hdrC7
      [PointCloudViewer.ptC7w] = some PointCloudViewer.bufsC7w := by
    have h1 : interpF64 PointCloudViewer.hdrC7.xScale = some 0 := by
      norm_num [interpF64, PointCloudViewer.hdrC7]
    have h2 : interpF64 PointCloudViewer.hdrC7.zScale = some 1 := by
      norm_num [interpF64, PointCloudViewer.hdrC7, PointCloudViewer.oneBits]
    have h3 : interpF64 PointCloudViewer.hdrC7.maxZ = some 1 := by
      norm_num [interpF64, PointCloudViewer.hdrC7, PointCloudViewer.oneBits]
    simp only [PointCloudViewer.assemblePoints, PointCloudViewer.hdrC7] at h1 h2 h3 ⊢
    rw [h1] at *
    norm_num [h2, h3, PointCloudViewer.pointColor, PointCloudViewer.heightColor,
      PointCloudViewer.ptC7w, PointCloudViewer.bufsC7w]
  exact ⟨by decide, ha,
    c7_decoded_invariant PointCloudViewer.bufC7w PointCloudViewer.hdrC7
      [PointCloudViewer.ptC7w] PointCloudViewer.bufsC7w (by decide) (by decide) ha⟩

end ThreeViewer
